import Mathlib

/-!
Verification of the pyhystrix fault-tolerance engine against its
natural-language specification.  The definitions below are a shallow
embedding of `src/circuit_breaker.py`, `src/pyhystrix.py` and
`src/config.py`: Python methods become pure Lean functions, the mutable
`self` becomes explicit state passing, `time.time()` becomes a natural
number clock passed to every operation that reads it, and Python
exceptions raised by the wrapped function become an `Except` outcome.
Exception classes are an abstract type `C`, exception instances an
abstract type `E`, and Python's `isinstance` check (which includes
subclass matching) is an abstract boolean relation `isInst : E → C → Bool`.
-/

namespace PyHystrix

/-- Breaker states, `CLOSED = 0`, `OPEN = 1`, `HALF_OPEN = 2`
(src/circuit_breaker.py lines 32-34). -/
inductive BState where
  | Closed
  | Open
  | HalfOpen
deriving DecidableEq, Repr

/-- State of a `CircuitBreaker` object (src/circuit_breaker.py,
`CircuitBreaker.__init__`).  `C` is the type of exception classes and `α`
the wrapped function's return type.  Field names follow the Python
attributes (without the leading underscore), including the source's
spelling `threashold`.  The spec calls `open_circuit_failure_count` the
`rejected_count` and `open_circuit_failure_threashold` the
`rejected_threshold`. -/
structure CircuitBreaker (C α : Type) where
  allowed_fails : Nat
  retry_time : Nat
  open_circuit_failure_threashold : Nat
  failure_count : Nat
  open_circuit_failure_count : Nat
  state : BState
  half_open_time : Nat
  validation_func : Option (α → Bool)
  allowed_exceptions : List C
  failure_exceptions : List C

/-- Python `isinstance(e, tuple(cs))`: `e` matches some class in the
tuple (subclass matching is folded into `isInst`). -/
def matchesAny {E C : Type} (isInst : E → C → Bool) (e : E) (cs : List C) : Bool :=
  cs.any (fun c => isInst e c)

/-- What `_call` can raise to its caller: the `ConnectionError("Open
circuit")` synthesized on an open circuit, or a rethrown exception `e` of
the wrapped function (the spec claims rethrow happens; the code decides). -/
inductive CallErr (E : Type) where
  | openCircuit
  | raised : E → CallErr E
deriving DecidableEq, Repr

namespace CircuitBreaker

variable {E C α : Type}

/-- Constructor state after `CircuitBreaker.__init__` (the `ValueError`
branch for both exception lists non-empty is captured as a hypothesis on
`Reachable.init` below). -/
def mkBreaker (af rt ra : Nat) (vf : Option (α → Bool)) (ae fe : List C) :
    CircuitBreaker C α :=
  { allowed_fails := af
    retry_time := rt
    open_circuit_failure_threashold := ra
    failure_count := 0
    open_circuit_failure_count := 0
    state := .Closed
    half_open_time := 0
    validation_func := vf
    allowed_exceptions := ae
    failure_exceptions := fe }

/-- Python `CircuitBreaker._open` (lines 91-97). -/
def openState (cb : CircuitBreaker C α) (now : Nat) : CircuitBreaker C α :=
  { cb with
    state := .Open
    half_open_time := now + cb.retry_time
    open_circuit_failure_count := 0 }

/-- Python `CircuitBreaker._close` (lines 99-104). -/
def closeState (cb : CircuitBreaker C α) : CircuitBreaker C α :=
  { cb with
    state := .Closed
    failure_count := 0
    open_circuit_failure_count := 0 }

/-- Python `CircuitBreaker._half_open` (lines 106-109). -/
def halfOpenState (cb : CircuitBreaker C α) : CircuitBreaker C α :=
  { cb with state := .HalfOpen }

/-- Python `CircuitBreaker._check_state` (lines 111-120): the
state-refresh rule.  In the source the method also returns
`self._state`; here the caller reads `.state` of the result. -/
def checkState (cb : CircuitBreaker C α) (now : Nat) : CircuitBreaker C α :=
  if cb.state = .Open ∧
      (cb.half_open_time ≤ now ∨
        cb.open_circuit_failure_threashold ≤ cb.open_circuit_failure_count) then
    cb.halfOpenState
  else
    cb

/-- Python `CircuitBreaker._on_failure` (lines 122-133). -/
def onFailure (cb : CircuitBreaker C α) (now : Nat) : CircuitBreaker C α :=
  let cb1 := { cb with failure_count := cb.failure_count + 1 }
  if cb1.allowed_fails ≤ cb1.failure_count then
    let cb2 := cb1.checkState now
    if cb2.state ≠ .Open then cb2.openState now else cb2
  else
    cb1

/-- Python `CircuitBreaker._on_success` (lines 135-139). -/
def onSuccess (cb : CircuitBreaker C α) : CircuitBreaker C α :=
  cb.closeState

/-- Python `CircuitBreaker._parse_result` (lines 141-155). -/
def parseResult (cb : CircuitBreaker C α) (now : Nat) (result : α) :
    CircuitBreaker C α :=
  match cb.validation_func with
  | none => cb.onSuccess
  | some vf => if vf result then cb.onSuccess else cb.onFailure now

/-- Python `CircuitBreaker._call` (lines 157-191), the spec's
`guarded_call`.  `outcome` is the behavior of the wrapped function
`func(*args, **kwargs)`: `.ok v` if it returns `v`, `.error e` if it
raises `e`.  The first component is what `_call` itself does: raise
(`Except.error`) or return a value (`Except.ok`, always `none` in the
source since every branch ends in a bare `return` or falls off the end). -/
def call (isInst : E → C → Bool) (cb : CircuitBreaker C α) (now : Nat)
    (outcome : Except E α) :
    Except (CallErr E) (Option α) × CircuitBreaker C α :=
  let cb1 := cb.checkState now
  if cb1.state = .Open then
    (.error .openCircuit,
      { cb1 with
        open_circuit_failure_count := cb1.open_circuit_failure_count + 1 })
  else
    match outcome with
    | .ok result => (.ok none, cb1.parseResult now result)
    | .error e =>
      if matchesAny isInst e cb1.allowed_exceptions then
        (.ok none, cb1)
      else if matchesAny isInst e cb1.failure_exceptions then
        (.ok none, cb1.onFailure now)
      else if cb1.failure_exceptions.isEmpty then
        (.ok none, cb1.onFailure now)
      else
        (.ok none, cb1)

/-- Python `CircuitBreaker.is_open` property (lines 200-203). -/
def is_open (cb : CircuitBreaker C α) (now : Nat) : Bool × CircuitBreaker C α :=
  let cb1 := cb.checkState now
  (decide (cb1.state = .Open), cb1)

/-- Python `CircuitBreaker.increment_failure_count` (lines 205-207). -/
def increment_failure_count (cb : CircuitBreaker C α) : CircuitBreaker C α :=
  { cb with open_circuit_failure_count := cb.open_circuit_failure_count + 1 }

/-- Python `CircuitBreaker.mark_failure` (lines 209-211). -/
def mark_failure (cb : CircuitBreaker C α) (now : Nat) : CircuitBreaker C α :=
  cb.onFailure now

/-- Python `CircuitBreaker.close` (lines 213-216). -/
def close (cb : CircuitBreaker C α) (now : Nat) : CircuitBreaker C α :=
  let cb1 := cb.checkState now
  if cb1.state ≠ .Closed then cb1.closeState else cb1

end CircuitBreaker

namespace CircuitBreaker

variable {E C α : Type}

/-- Configuration fields of a breaker: everything `__init__` sets and no
operation ever rewrites.  `sameCfg cb cb'` says `cb'` has `cb`'s
configuration. -/
def sameCfg (cb cb' : CircuitBreaker C α) : Prop :=
  cb'.allowed_fails = cb.allowed_fails ∧
  cb'.retry_time = cb.retry_time ∧
  cb'.open_circuit_failure_threashold = cb.open_circuit_failure_threashold ∧
  cb'.validation_func = cb.validation_func ∧
  cb'.allowed_exceptions = cb.allowed_exceptions ∧
  cb'.failure_exceptions = cb.failure_exceptions

/-- The counting invariant: provided `allowed_fails ≥ 1`, a Closed
breaker has strictly fewer failures than the threshold and a non-Closed
breaker has at least threshold many. -/
def StateInv (cb : CircuitBreaker C α) : Prop :=
  1 ≤ cb.allowed_fails →
    (cb.state = .Closed → cb.failure_count < cb.allowed_fails) ∧
    (cb.state ≠ .Closed → cb.allowed_fails ≤ cb.failure_count)

end CircuitBreaker

/-- One invocation of a public operation on a breaker: a decorated
function call (`_call`, with an arbitrary wrapped-function behavior),
`is_open`, `mark_failure`, `increment_failure_count` or `close`, at an
arbitrary clock reading. -/
inductive Step {E C α : Type} (isInst : E → C → Bool) :
    CircuitBreaker C α → CircuitBreaker C α → Prop where
  | is_open (cb : CircuitBreaker C α) (now : Nat) :
      Step isInst cb (cb.is_open now).2
  | call (cb : CircuitBreaker C α) (now : Nat) (outcome : Except E α) :
      Step isInst cb (CircuitBreaker.call isInst cb now outcome).2
  | mark_failure (cb : CircuitBreaker C α) (now : Nat) :
      Step isInst cb (cb.mark_failure now)
  | increment_failure_count (cb : CircuitBreaker C α) :
      Step isInst cb cb.increment_failure_count
  | close (cb : CircuitBreaker C α) (now : Nat) :
      Step isInst cb (cb.close now)

/-- Breaker states reachable from a freshly constructed breaker through
the public operations.  The hypothesis on `init` reflects the
`ValueError` raised by `__init__` when both exception lists are
non-empty: such a breaker is never constructed. -/
inductive Reachable {E C α : Type} (isInst : E → C → Bool) :
    CircuitBreaker C α → Prop where
  | init (af rt ra : Nat) (vf : Option (α → Bool)) (ae fe : List C)
      (h : ae = [] ∨ fe = []) :
      Reachable isInst (CircuitBreaker.mkBreaker af rt ra vf ae fe)
  | step {cb cb' : CircuitBreaker C α} :
      Reachable isInst cb → Step isInst cb cb' → Reachable isInst cb'


/-! Concrete instantiation used by witnesses and counterexamples:
exception classes and instances are natural numbers, `isinstance` is
equality, the wrapped function returns a natural number, and the
validator mirrors the test suite's `validation_stub` (`number > 0`). -/

def isInstW : Nat → Nat → Bool := fun e c => e == c

def vfW : Nat → Bool := fun v => decide (0 < v)

/-- A breaker constructed with `allowed_fails = 1`, `retry_time = 5`,
`retry_after = 20`, the test validator, and `failure_exceptions = [7]`. -/
def cbW0 : CircuitBreaker Nat Nat :=
  CircuitBreaker.mkBreaker 1 5 20 (some vfW) [] [7]

/-- `cbW0` after one `mark_failure` at time 0: Open, `half_open_time = 5`. -/
def cbW1 : CircuitBreaker Nat Nat := cbW0.mark_failure 0

/-- `cbW1` refreshed by `is_open` at time 5: Half-Open. -/
def cbW2 : CircuitBreaker Nat Nat := (cbW1.is_open 5).2

/-- `cbW1` after one `increment_failure_count`: Open with
`open_circuit_failure_count = 1`. -/
def cbO : CircuitBreaker Nat Nat := cbW1.increment_failure_count

/-! The per-endpoint breaker registry, src/pyhystrix.py `class Breaker`. -/

/-- A URL as parsed by `urlparse` (the parser itself is the Python
standard library, outside this repository; the claims quantify over the
parsed components). -/
structure ParsedUrl where
  scheme : String
  netloc : String
  path : String
  query : String
  fragment : String

namespace Breaker

/-- Python `Breaker.get_key` (src/pyhystrix.py lines 35-39):
`"".join([o.scheme, o.netloc, o.path])`. -/
def get_key (o : ParsedUrl) : String :=
  String.join [o.scheme, o.netloc, o.path]

/-- The `Breaker` registry state: the `_breakers` dictionary.  Breaker
objects are identified by their creation index: `next_id` counts the
`CircuitBreaker` constructions performed so far, so two entries denote
the identical Python object exactly when their indices are equal. -/
structure Registry where
  breakers : List (String × Nat)
  next_id : Nat

/-- The registry at process start: empty dictionary. -/
def Registry.initial : Registry := ⟨[], 0⟩

/-- Python `Breaker.new` (src/pyhystrix.py lines 41-62): return the
existing breaker for the key if present, else construct a new breaker,
store it under the key and return it. -/
def new (rs : Registry) (u : ParsedUrl) : Nat × Registry :=
  let key := get_key u
  match rs.breakers.lookup key with
  | some b => (b, rs)
  | none => (rs.next_id, ⟨(key, rs.next_id) :: rs.breakers, rs.next_id + 1⟩)

/-- A sequence of `Breaker.new` calls, returning the final registry. -/
def runNew : Registry → List ParsedUrl → Registry
  | rs, [] => rs
  | rs, u :: us => runNew (new rs u).2 us

/-- Number of `CircuitBreaker` constructions performed for key `k` over a
sequence of `Breaker.new` calls (`new` constructs exactly when the key is
absent). -/
def creationsFor (k : String) : Registry → List ParsedUrl → Nat
  | _, [] => 0
  | rs, u :: us =>
    (if get_key u = k ∧ rs.breakers.lookup k = none then 1 else 0) +
      creationsFor k (new rs u).2 us

end Breaker

def urlW1 : ParsedUrl := ⟨"http", "example.com", "/api", "a=1", ""⟩

def urlW2 : ParsedUrl := ⟨"http", "example.com", "/api", "b=2", "frag"⟩

def urlW3 : ParsedUrl := ⟨"https", "other.com", "/x", "", ""⟩

/-! Configuration, src/config.py `class Config`, and the request-time
helpers of src/pyhystrix.py that read it. -/

/-- The process environment `os.environ`: a partial map from variable
names to string values. -/
abbrev Env := String → Option String

/-- Representation of the Python float used for the backoff factor:
`none` is the default `0.5`, `some s` is `float(s)` for the string `s`.
Floating point itself is not modelled; the raw string determines the
parsed value. -/
abbrev PyFloat := Option String

/-- Decimal digits to a number; `none` on a non-digit. -/
def digitsToNat (acc : Nat) : List Char → Option Nat
  | [] => some acc
  | c :: cs => if c.isDigit then digitsToNat (acc * 10 + (c.toNat - 48)) cs else none

/-- Python `int(s)` restricted to an optional minus sign followed by
decimal digits (`none` models the `ValueError` on anything else;
whitespace and the other integer syntaxes are not modelled). -/
def pyInt (s : String) : Option Int :=
  match s.data with
  | [] => none
  | '-' :: cs =>
    match cs with
    | [] => none
    | _ => (digitsToNat 0 cs).map (fun n => -(n : Int))
  | cs => (digitsToNat 0 cs).map (fun n => (n : Int))

namespace Config

/-- Python `int(os.environ.get(name, dflt))` (src/config.py): if the
variable is set, parse its string — `none` models the `ValueError` that
`int()` raises on a malformed string — else use the integer default. -/
def envInt (env : Env) (name : String) (dflt : Int) : Option Int :=
  match env name with
  | none => some dflt
  | some s => pyInt s

def connect_timeout (env : Env) : Option Int := envInt env "PYH_CONNECT_TIMEOUT" 5

def read_timeout (env : Env) : Option Int := envInt env "PYH_READ_TIMEOUT" 5

def max_tries (env : Env) : Option Int := envInt env "PHY_MAX_TRIES" 3

/-- Python `float(os.environ.get("PHY_BACKOFF_FACTOR", 0.5))`, in the
`PyFloat` representation. -/
def backoff_factor (env : Env) : PyFloat := env "PHY_BACKOFF_FACTOR"

def method_whitelist : List String := ["HEAD", "GET"]

def status_forcelist : List Int := [500]

def cb_fail_threshold (env : Env) : Option Int :=
  envInt env "PYH_CIRCUIT_FAIL_THRESHOLD" 5

def cb_alive_threshold (env : Env) : Option Int :=
  envInt env "PYH_CIRCUIT_ALIVE_THRESHOLD" 20

def cb_delay (env : Env) : Option Int := envInt env "PYH_CIRCUIT_DELAY" 5

end Config

/-- The caller keyword arguments consumed by `get_backoff_args` and
`get_timeouts`: `none` means the caller did not pass the argument. -/
structure Kwargs where
  max_tries : Option Int
  status_forcelist : Option (List Int)
  backoff_factor : Option PyFloat
  timeout : Option (Int × Int)

/-- The dictionary built by `get_backoff_args`; `frozenset` is kept as
the underlying list. -/
structure BackoffArgs where
  method_whitelist : List String
  status_forcelist : List Int
  backoff_factor : PyFloat
  max_tries : Option Int

/-- Python `get_backoff_args` (src/pyhystrix.py lines 65-81).
`kwargs.pop(KEY, Config.value())` reads the environment at call time,
i.e. at request time.  `if max_tries and max_tries > 0` appends the
upper-cased method to the whitelist (Python truthiness plus the
comparison amounts to `0 < v`). -/
def get_backoff_args (kwargs : Kwargs) (method : String) (env : Env) : BackoffArgs :=
  let max_tries := kwargs.max_tries
  let args : BackoffArgs :=
    { method_whitelist := Config.method_whitelist
      status_forcelist := kwargs.status_forcelist.getD Config.status_forcelist
      backoff_factor := kwargs.backoff_factor.getD (Config.backoff_factor env)
      max_tries :=
        match kwargs.max_tries with
        | some v => some v
        | none => Config.max_tries env }
  match max_tries with
  | some v =>
    if 0 < v then
      { args with method_whitelist := args.method_whitelist ++ [method.toUpper] }
    else args
  | none => args

/-- Python `get_timeouts` (src/pyhystrix.py lines 84-90): a caller-given
timeout wins, else the pair of environment-read defaults (read at request
time; `none` models `int()` failing on a malformed variable). -/
def get_timeouts (timeout : Option (Int × Int)) (env : Env) : Option (Int × Int) :=
  match timeout with
  | some t => some t
  | none =>
    match Config.connect_timeout env, Config.read_timeout env with
    | some ct, some rt => some (ct, rt)
    | _, _ => none

/-- The `CircuitBreaker` constructor arguments that `Breaker.new`
(src/pyhystrix.py lines 55-59) reads from the environment at
breaker-creation time. -/
structure CircuitCfg where
  allowed_fails : Option Int
  retry_time : Option Int
  retry_after : Option Int

def circuitCfg (env : Env) : CircuitCfg :=
  { allowed_fails := Config.cb_fail_threshold env
    retry_time := Config.cb_delay env
    retry_after := Config.cb_alive_threshold env }

/-- The environment variables the request path reads. -/
def configKeys : List String :=
  ["PYH_CONNECT_TIMEOUT", "PYH_READ_TIMEOUT", "PHY_MAX_TRIES",
   "PHY_BACKOFF_FACTOR", "PYH_CIRCUIT_FAIL_THRESHOLD",
   "PYH_CIRCUIT_ALIVE_THRESHOLD", "PYH_CIRCUIT_DELAY"]

def envW1 : Env := fun _ => none

def envW2 : Env := fun k => if k = "PHY_MAX_TRIES" then some "7" else none

def envW3 : Env := fun k => if k = "SOME_OTHER_VAR" then some "x" else none

def kwargsW : Kwargs := ⟨none, none, none, none⟩

/-! The retry/breaker coordination, src/pyhystrix.py `CustomRetry`. -/

/-- Python `CustomRetry.is_exhausted` (src/pyhystrix.py lines 116-122):
mark a failure on the circuit, then report exhaustion if the circuit is
open after that, else defer to `urllib3.Retry.is_exhausted`, whose
verdict is the `superExhausted` input. -/
def customRetryIsExhausted {C α : Type} (cb : CircuitBreaker C α) (now : Nat)
    (superExhausted : Bool) : Bool × CircuitBreaker C α :=
  let cb1 := cb.mark_failure now
  let res := cb1.is_open now
  (if res.1 then true else superExhausted, res.2)

/-- Modelled from the spec: the retry loop itself lives in `urllib3`
(`Retry.increment` and the connection pool recursion), outside this
repository.  Per spec section 4.3, in a cycle driven against an
always-failing transport, each transport attempt is followed by a retry
decision that consults `CustomRetry.is_exhausted` (embedded above from
the source); the decision aborts the cycle — surfacing the most recent
error — when it reports exhaustion, either because the breaker is open
after `mark_failure` or because the attempts budget is spent, and
otherwise schedules the next attempt.  Returns the number of transport
attempts made and the final breaker state. -/
def retryCycle {C α : Type} : Nat → CircuitBreaker C α → Nat → Nat × CircuitBreaker C α
  | retries_left, cb, now =>
    let dec := customRetryIsExhausted cb now (decide (retries_left = 0))
    if dec.1 then (1, dec.2)
    else
      match retries_left with
      | 0 => (1, dec.2)
      | l + 1 => ((retryCycle l dec.2 now).1 + 1, (retryCycle l dec.2 now).2)

namespace CircuitBreaker

variable {E C α : Type}

theorem sameCfg_rfl (cb : CircuitBreaker C α) : sameCfg cb cb :=
  ⟨rfl, rfl, rfl, rfl, rfl, rfl⟩

theorem sameCfg_trans {a b c : CircuitBreaker C α}
    (h1 : sameCfg a b) (h2 : sameCfg b c) : sameCfg a c := by
  obtain ⟨e1, e2, e3, e4, e5, e6⟩ := h1
  obtain ⟨f1, f2, f3, f4, f5, f6⟩ := h2
  exact ⟨f1.trans e1, f2.trans e2, f3.trans e3, f4.trans e4, f5.trans e5, f6.trans e6⟩

theorem sameCfg_openState (cb : CircuitBreaker C α) (now : Nat) :
    sameCfg cb (cb.openState now) :=
  ⟨rfl, rfl, rfl, rfl, rfl, rfl⟩

theorem sameCfg_closeState (cb : CircuitBreaker C α) :
    sameCfg cb cb.closeState :=
  ⟨rfl, rfl, rfl, rfl, rfl, rfl⟩

theorem sameCfg_halfOpenState (cb : CircuitBreaker C α) :
    sameCfg cb cb.halfOpenState :=
  ⟨rfl, rfl, rfl, rfl, rfl, rfl⟩

theorem sameCfg_set_fc (cb : CircuitBreaker C α) (n : Nat) :
    sameCfg cb { cb with failure_count := n } :=
  ⟨rfl, rfl, rfl, rfl, rfl, rfl⟩

theorem sameCfg_set_occ (cb : CircuitBreaker C α) (n : Nat) :
    sameCfg cb { cb with open_circuit_failure_count := n } :=
  ⟨rfl, rfl, rfl, rfl, rfl, rfl⟩

theorem sameCfg_checkState (cb : CircuitBreaker C α) (now : Nat) :
    sameCfg cb (cb.checkState now) := by
  unfold checkState
  split
  · exact sameCfg_halfOpenState cb
  · exact sameCfg_rfl cb

theorem sameCfg_onFailure (cb : CircuitBreaker C α) (now : Nat) :
    sameCfg cb (cb.onFailure now) := by
  unfold onFailure
  dsimp only
  split
  · split
    · exact sameCfg_trans
        (sameCfg_trans (sameCfg_set_fc cb (cb.failure_count + 1))
          (sameCfg_checkState { cb with failure_count := cb.failure_count + 1 } now))
        (sameCfg_openState
          ({ cb with failure_count := cb.failure_count + 1 }.checkState now) now)
    · exact sameCfg_trans (sameCfg_set_fc cb (cb.failure_count + 1))
        (sameCfg_checkState { cb with failure_count := cb.failure_count + 1 } now)
  · exact sameCfg_set_fc cb (cb.failure_count + 1)

theorem sameCfg_parseResult (cb : CircuitBreaker C α) (now : Nat) (v : α) :
    sameCfg cb (cb.parseResult now v) := by
  unfold parseResult
  cases cb.validation_func with
  | none => exact sameCfg_closeState cb
  | some vf =>
    dsimp only
    split
    · exact sameCfg_closeState cb
    · exact sameCfg_onFailure cb now

theorem sameCfg_call (isInst : E → C → Bool) (cb : CircuitBreaker C α)
    (now : Nat) (outcome : Except E α) :
    sameCfg cb (CircuitBreaker.call isInst cb now outcome).2 := by
  unfold call
  dsimp only
  split
  · exact sameCfg_trans (sameCfg_checkState cb now)
      (sameCfg_set_occ (cb.checkState now) ((cb.checkState now).open_circuit_failure_count + 1))
  · cases outcome with
    | ok v =>
      exact sameCfg_trans (sameCfg_checkState cb now)
        (sameCfg_parseResult (cb.checkState now) now v)
    | error e =>
      dsimp only
      split
      · exact sameCfg_checkState cb now
      · split
        · exact sameCfg_trans (sameCfg_checkState cb now)
            (sameCfg_onFailure (cb.checkState now) now)
        · split
          · exact sameCfg_trans (sameCfg_checkState cb now)
              (sameCfg_onFailure (cb.checkState now) now)
          · exact sameCfg_checkState cb now

theorem sameCfg_is_open (cb : CircuitBreaker C α) (now : Nat) :
    sameCfg cb (cb.is_open now).2 :=
  sameCfg_checkState cb now

theorem sameCfg_increment_failure_count (cb : CircuitBreaker C α) :
    sameCfg cb cb.increment_failure_count :=
  ⟨rfl, rfl, rfl, rfl, rfl, rfl⟩

theorem sameCfg_close (cb : CircuitBreaker C α) (now : Nat) :
    sameCfg cb (cb.close now) := by
  unfold close
  dsimp only
  split
  · exact sameCfg_trans (sameCfg_checkState cb now) (sameCfg_closeState _)
  · exact sameCfg_checkState cb now

theorem checkState_failure_count (cb : CircuitBreaker C α) (now : Nat) :
    (cb.checkState now).failure_count = cb.failure_count := by
  unfold checkState
  split <;> rfl

theorem checkState_of_not_open {cb : CircuitBreaker C α} (now : Nat)
    (h : cb.state ≠ .Open) : cb.checkState now = cb := by
  unfold checkState
  rw [if_neg]
  rintro ⟨h1, -⟩
  exact h h1

theorem checkState_pos {cb : CircuitBreaker C α} (now : Nat)
    (h : cb.state = .Open)
    (hc : cb.half_open_time ≤ now ∨
      cb.open_circuit_failure_threashold ≤ cb.open_circuit_failure_count) :
    cb.checkState now = cb.halfOpenState := by
  unfold checkState
  rw [if_pos ⟨h, hc⟩]

theorem checkState_neg {cb : CircuitBreaker C α} (now : Nat)
    (hc : ¬ (cb.half_open_time ≤ now ∨
      cb.open_circuit_failure_threashold ≤ cb.open_circuit_failure_count)) :
    cb.checkState now = cb := by
  unfold checkState
  rw [if_neg]
  rintro ⟨-, h2⟩
  exact hc h2

/-- Characterization of `_on_failure`: below the threshold it only
increments the counter; at or above the threshold the breaker ends Open
with the incremented counter. -/
theorem onFailure_spec (cb : CircuitBreaker C α) (now : Nat) :
    (cb.allowed_fails ≤ cb.failure_count + 1 →
      (cb.onFailure now).state = .Open ∧
      (cb.onFailure now).failure_count = cb.failure_count + 1) ∧
    (cb.failure_count + 1 < cb.allowed_fails →
      cb.onFailure now = { cb with failure_count := cb.failure_count + 1 }) := by
  constructor
  · intro h
    unfold onFailure
    dsimp only
    rw [if_pos h]
    split
    · refine ⟨rfl, ?_⟩
      show ({ cb with failure_count := cb.failure_count + 1 }.checkState now).failure_count = _
      rw [checkState_failure_count]
    · rename_i hopen
      push_neg at hopen
      refine ⟨hopen, ?_⟩
      rw [checkState_failure_count]
  · intro h
    unfold onFailure
    dsimp only
    rw [if_neg (by omega)]

end CircuitBreaker

namespace CircuitBreaker

variable {E C α : Type}

theorem step_sameCfg {isInst : E → C → Bool} {cb cb' : CircuitBreaker C α}
    (h : Step isInst cb cb') : sameCfg cb cb' := by
  cases h with
  | is_open now => exact sameCfg_is_open cb now
  | call now outcome => exact sameCfg_call isInst cb now outcome
  | mark_failure now => exact sameCfg_onFailure cb now
  | increment_failure_count => exact sameCfg_increment_failure_count cb
  | close now => exact sameCfg_close cb now

theorem stateInv_checkState {cb : CircuitBreaker C α} (now : Nat)
    (h : StateInv cb) : StateInv (cb.checkState now) := by
  unfold checkState
  split
  · rename_i hcond
    intro haf
    obtain ⟨-, h2⟩ := h haf
    constructor
    · intro hc
      simp only [halfOpenState] at hc
      exact absurd hc (by decide)
    · intro _
      show cb.allowed_fails ≤ cb.failure_count
      exact h2 (by rw [hcond.1]; decide)
  · exact h

theorem stateInv_onFailure {cb : CircuitBreaker C α} (now : Nat)
    (h : StateInv cb) : StateInv (cb.onFailure now) := by
  intro haf
  have hafeq : (cb.onFailure now).allowed_fails = cb.allowed_fails :=
    (sameCfg_onFailure cb now).1
  rw [hafeq] at haf
  obtain ⟨hs1, hs2⟩ := onFailure_spec cb now
  by_cases hth : cb.allowed_fails ≤ cb.failure_count + 1
  · obtain ⟨hstate, hfc⟩ := hs1 hth
    constructor
    · intro hc
      rw [hstate] at hc
      exact absurd hc (by decide)
    · intro _
      rw [hafeq, hfc]
      exact hth
  · have heq := hs2 (by omega)
    obtain ⟨h1, h2⟩ := h haf
    rw [heq]
    constructor
    · intro _
      show cb.failure_count + 1 < cb.allowed_fails
      omega
    · intro hc
      show cb.allowed_fails ≤ cb.failure_count + 1
      have hle := h2 (hc : cb.state ≠ .Closed)
      omega

theorem stateInv_closeState (cb : CircuitBreaker C α) :
    StateInv cb.closeState := by
  intro haf
  constructor
  · intro _
    exact haf
  · intro hc
    exact absurd (show cb.closeState.state = .Closed from rfl) hc

theorem stateInv_parseResult {cb : CircuitBreaker C α} (now : Nat) (v : α)
    (h : StateInv cb) : StateInv (cb.parseResult now v) := by
  unfold parseResult
  cases hv : cb.validation_func with
  | none =>
    dsimp only
    exact stateInv_closeState cb
  | some vf =>
    dsimp only
    split
    · exact stateInv_closeState cb
    · exact stateInv_onFailure now h

theorem stateInv_call {isInst : E → C → Bool} {cb : CircuitBreaker C α}
    (now : Nat) (outcome : Except E α) (h : StateInv cb) :
    StateInv (CircuitBreaker.call isInst cb now outcome).2 := by
  have hcs := stateInv_checkState now h
  unfold call
  dsimp only
  split
  · intro haf
    obtain ⟨h1, h2⟩ := hcs haf
    exact ⟨h1, h2⟩
  · cases outcome with
    | ok v =>
      dsimp only
      exact stateInv_parseResult now v hcs
    | error e =>
      dsimp only
      split
      · exact hcs
      · split
        · exact stateInv_onFailure now hcs
        · split
          · exact stateInv_onFailure now hcs
          · exact hcs

theorem stateInv_step {isInst : E → C → Bool} {cb cb' : CircuitBreaker C α}
    (hstep : Step isInst cb cb') (h : StateInv cb) : StateInv cb' := by
  cases hstep with
  | is_open now => exact stateInv_checkState now h
  | call now outcome => exact stateInv_call now outcome h
  | mark_failure now => exact stateInv_onFailure now h
  | increment_failure_count =>
    intro haf
    obtain ⟨h1, h2⟩ := h haf
    exact ⟨h1, h2⟩
  | close now =>
    have hcs := stateInv_checkState now h
    unfold CircuitBreaker.close
    dsimp only
    split
    · exact stateInv_closeState _
    · exact hcs

/-- Every reachable breaker satisfies the exception-list exclusivity and
the counting invariant. -/
theorem reachable_inv {isInst : E → C → Bool} {cb : CircuitBreaker C α}
    (h : Reachable isInst cb) :
    (cb.allowed_exceptions = [] ∨ cb.failure_exceptions = []) ∧ StateInv cb := by
  induction h with
  | init af rt ra vf ae fe hex =>
    refine ⟨hex, ?_⟩
    intro haf
    refine ⟨fun _ => haf, fun hc => ?_⟩
    exact absurd (show (mkBreaker af rt ra vf ae fe).state = .Closed from rfl) hc
  | step hr hstep ih =>
    obtain ⟨ihex, ihinv⟩ := ih
    obtain ⟨-, -, -, -, hae, hfe⟩ := step_sameCfg hstep
    rw [hae, hfe]
    exact ⟨ihex, stateInv_step hstep ihinv⟩

end CircuitBreaker

namespace CircuitBreaker

variable {E C α : Type}

theorem onFailure_failure_count (cb : CircuitBreaker C α) (now : Nat) :
    (cb.onFailure now).failure_count = cb.failure_count + 1 := by
  obtain ⟨hs1, hs2⟩ := onFailure_spec cb now
  by_cases hth : cb.allowed_fails ≤ cb.failure_count + 1
  · exact (hs1 hth).2
  · rw [hs2 (by omega)]

theorem checkState_not_closed {cb : CircuitBreaker C α} (now : Nat)
    (h : cb.state ≠ .Closed) : (cb.checkState now).state ≠ .Closed := by
  unfold checkState
  split
  · intro hc
    simp only [halfOpenState] at hc
    exact absurd hc (by decide)
  · exact h

theorem onFailure_closed_of_closed {cb : CircuitBreaker C α} {now : Nat}
    (h : (cb.onFailure now).state = .Closed) :
    cb.state = .Closed ∧
    cb.onFailure now = { cb with failure_count := cb.failure_count + 1 } := by
  obtain ⟨hs1, hs2⟩ := onFailure_spec cb now
  by_cases hth : cb.allowed_fails ≤ cb.failure_count + 1
  · obtain ⟨ho, -⟩ := hs1 hth
    rw [ho] at h
    exact absurd h (by decide)
  · have heq := hs2 (by omega)
    rw [heq] at h
    exact ⟨h, heq⟩

theorem onFailure_closed_to_open {cb : CircuitBreaker C α} {now : Nat}
    (hclosed : cb.state = .Closed) (hfc : cb.failure_count < cb.allowed_fails)
    (hopen : (cb.onFailure now).state = .Open) :
    (cb.onFailure now).failure_count = (cb.onFailure now).allowed_fails := by
  by_cases hth : cb.allowed_fails ≤ cb.failure_count + 1
  · obtain ⟨-, hfceq⟩ := (onFailure_spec cb now).1 hth
    rw [hfceq, (sameCfg_onFailure cb now).1]
    omega
  · have heq := (onFailure_spec cb now).2 (by omega)
    have hco : cb.state = .Open := by rw [heq] at hopen; exact hopen
    rw [hclosed] at hco
    exact absurd hco (by decide)

theorem call_open_spec (isInst : E → C → Bool) (cb : CircuitBreaker C α)
    (now : Nat) (outcome : Except E α)
    (hs : (cb.checkState now).state = .Open) :
    CircuitBreaker.call isInst cb now outcome =
      (.error .openCircuit,
        { cb.checkState now with
          open_circuit_failure_count :=
            (cb.checkState now).open_circuit_failure_count + 1 }) := by
  unfold call
  dsimp only
  rw [if_pos hs]

theorem call_error_spec (isInst : E → C → Bool) (cb : CircuitBreaker C α)
    (now : Nat) (e : E) (hs : (cb.checkState now).state ≠ .Open) :
    CircuitBreaker.call isInst cb now (.error e) =
      (if matchesAny isInst e (cb.checkState now).allowed_exceptions then
        (.ok none, cb.checkState now)
      else if matchesAny isInst e (cb.checkState now).failure_exceptions then
        (.ok none, (cb.checkState now).onFailure now)
      else if (cb.checkState now).failure_exceptions.isEmpty then
        (.ok none, (cb.checkState now).onFailure now)
      else
        (.ok none, cb.checkState now)) := by
  unfold call
  dsimp only
  rw [if_neg hs]

theorem call_ok_spec (isInst : E → C → Bool) (cb : CircuitBreaker C α)
    (now : Nat) (v : α) (hs : (cb.checkState now).state ≠ .Open) :
    CircuitBreaker.call isInst cb now (.ok v) =
      (.ok none, (cb.checkState now).parseResult now v) := by
  unfold call
  dsimp only
  rw [if_neg hs]

theorem call_result_cases (isInst : E → C → Bool) (cb : CircuitBreaker C α)
    (now : Nat) (outcome : Except E α)
    (hs : (cb.checkState now).state ≠ .Open) :
    (CircuitBreaker.call isInst cb now outcome).2 = cb.checkState now ∨
    (CircuitBreaker.call isInst cb now outcome).2 = (cb.checkState now).closeState ∨
    (CircuitBreaker.call isInst cb now outcome).2 = (cb.checkState now).onFailure now := by
  unfold call
  dsimp only
  rw [if_neg hs]
  cases outcome with
  | ok v =>
    dsimp only
    unfold parseResult onSuccess
    cases hv : (cb.checkState now).validation_func with
    | none => exact Or.inr (Or.inl rfl)
    | some vf =>
      dsimp only
      split
      · exact Or.inr (Or.inl rfl)
      · exact Or.inr (Or.inr rfl)
  | error e =>
    dsimp only
    split
    · exact Or.inl rfl
    · split
      · exact Or.inr (Or.inr rfl)
      · split
        · exact Or.inr (Or.inr rfl)
        · exact Or.inl rfl

theorem close_cases (cb : CircuitBreaker C α) (now : Nat) :
    cb.close now = cb.checkState now ∨
    cb.close now = (cb.checkState now).closeState := by
  unfold close
  dsimp only
  split
  · exact Or.inr rfl
  · exact Or.inl rfl

theorem matchesAny_ne_nil {isInst : E → C → Bool} {e : E} {l : List C}
    (h : matchesAny isInst e l = true) : l ≠ [] := by
  intro hl
  rw [hl] at h
  simp [matchesAny] at h

end CircuitBreaker

theorem reachW0 : Reachable isInstW cbW0 :=
  Reachable.init 1 5 20 (some vfW) [] [7] (Or.inl rfl)

theorem reachW1 : Reachable isInstW cbW1 :=
  reachW0.step (Step.mark_failure cbW0 0)

theorem reachW2 : Reachable isInstW cbW2 :=
  reachW1.step (Step.is_open cbW1 5)

theorem reachObs : Reachable isInstW cbO :=
  reachW1.step (Step.increment_failure_count cbW1)

/-- C10: whenever `_call` returns normally — successful call, allowed
exception, or non-failure exception with `failure_exceptions` configured
— it returns `None`: the wrapped function's return value is never passed
back to the caller (and the only raise is the open-circuit
`ConnectionError`). -/
theorem claim_C10 {E C α : Type} (isInst : E → C → Bool)
    (cb : CircuitBreaker C α) (now : Nat) (outcome : Except E α) :
    (CircuitBreaker.call isInst cb now outcome).1 = .error .openCircuit ∨
    (CircuitBreaker.call isInst cb now outcome).1 = .ok none := by
  unfold CircuitBreaker.call
  dsimp only
  split
  · exact Or.inl rfl
  · cases outcome with
    | ok v => exact Or.inr rfl
    | error e =>
      dsimp only
      split
      · exact Or.inr rfl
      · split
        · exact Or.inr rfl
        · split
          · exact Or.inr rfl
          · exact Or.inr rfl

/-- C5: the state-refresh step (run by `is_open`, `guarded_call` and
`close` before any state-dependent decision) moves an Open breaker to
Half-Open iff `now ≥ half_open_at` or the rejected count has reached the
threshold, and leaves a Closed or Half-Open breaker unchanged. -/
theorem claim_C5 {C α : Type} (cb : CircuitBreaker C α) (now : Nat) :
    (cb.is_open now).2 = cb.checkState now ∧
    (cb.state = .Open →
      (((cb.checkState now).state = .HalfOpen) ↔
        (cb.half_open_time ≤ now ∨
          cb.open_circuit_failure_threashold ≤ cb.open_circuit_failure_count)) ∧
      ((cb.half_open_time ≤ now ∨
          cb.open_circuit_failure_threashold ≤ cb.open_circuit_failure_count) →
        cb.checkState now = { cb with state := .HalfOpen }) ∧
      (¬ (cb.half_open_time ≤ now ∨
          cb.open_circuit_failure_threashold ≤ cb.open_circuit_failure_count) →
        cb.checkState now = cb)) ∧
    (cb.state ≠ .Open → cb.checkState now = cb) := by
  refine ⟨rfl, fun hopen => ⟨⟨?_, ?_⟩, ?_, ?_⟩,
    fun hno => CircuitBreaker.checkState_of_not_open now hno⟩
  · intro hhalf
    by_contra hc
    rw [CircuitBreaker.checkState_neg now hc] at hhalf
    rw [hopen] at hhalf
    exact absurd hhalf (by decide)
  · intro hc
    rw [CircuitBreaker.checkState_pos now hopen hc]
    rfl
  · intro hc
    rw [CircuitBreaker.checkState_pos now hopen hc]
    rfl
  · intro hc
    exact CircuitBreaker.checkState_neg now hc

/-- Witness for C5 at the concrete Open breaker `cbW1` whose Half-Open
deadline (5) has elapsed at time 5. -/
theorem claim_C5_witness :
    cbW1.state = .Open ∧ (cbW1.checkState 5).state = .HalfOpen := by
  refine ⟨rfl, ?_⟩
  have h := ((claim_C5 cbW1 5).2.1 rfl).2.1 (Or.inl (by decide))
  rw [h]

/-- C9: every breaker reachable from construction through the public
operations, with `allowed_fails ≥ 1`, satisfies
`0 ≤ failure_count < allowed_fails` whenever it is Closed. -/
theorem claim_C9 {E C α : Type} (isInst : E → C → Bool)
    (cb : CircuitBreaker C α) (h : Reachable isInst cb)
    (haf : 1 ≤ cb.allowed_fails) (hs : cb.state = .Closed) :
    0 ≤ cb.failure_count ∧ cb.failure_count < cb.allowed_fails :=
  ⟨Nat.zero_le _, ((CircuitBreaker.reachable_inv h).2 haf).1 hs⟩

/-- Witness for C9 at the freshly constructed breaker `cbW0`. -/
theorem claim_C9_witness :
    0 ≤ cbW0.failure_count ∧ cbW0.failure_count < cbW0.allowed_fails :=
  claim_C9 isInstW cbW0 reachW0 (by decide) rfl


namespace CircuitBreaker

variable {E C α : Type}

theorem onFailure_opens {cb : CircuitBreaker C α} (now : Nat)
    (hno : cb.state ≠ .Open) (hth : cb.allowed_fails ≤ cb.failure_count + 1) :
    cb.onFailure now =
      ({ cb with failure_count := cb.failure_count + 1 } :
        CircuitBreaker C α).openState now := by
  unfold onFailure
  dsimp only
  rw [if_pos hth]
  rw [checkState_of_not_open now
    (show ({ cb with failure_count := cb.failure_count + 1 } :
      CircuitBreaker C α).state ≠ .Open from hno)]
  rw [if_pos (show ({ cb with failure_count := cb.failure_count + 1 } :
      CircuitBreaker C α).state ≠ .Open from hno)]

end CircuitBreaker

/-- Counterexample to C1 as stated: with `failure_exceptions = [7]`
configured, a wrapped function raising the matching error 7 has the
failure counted but the error swallowed — `_call` returns `None` instead
of rethrowing — and a non-matching error 9 is also swallowed (no state
change, but no rethrow either). -/
theorem claim_C1_counterexample :
    cbW0.failure_exceptions ≠ [] ∧ cbW0.state ≠ .Open ∧
    (CircuitBreaker.call isInstW cbW0 0 (.error 7)).1 = .ok none ∧
    (CircuitBreaker.call isInstW cbW0 0 (.error 7)).1 ≠
      .error (.raised 7) ∧
    (CircuitBreaker.call isInstW cbW0 0 (.error 7)).2.failure_count = 1 ∧
    (CircuitBreaker.call isInstW cbW0 0 (.error 9)).1 = .ok none ∧
    (CircuitBreaker.call isInstW cbW0 0 (.error 9)).1 ≠
      .error (.raised 9) ∧
    (CircuitBreaker.call isInstW cbW0 0 (.error 9)).2 = cbW0 :=
  ⟨by decide, by decide, rfl, fun h => Except.noConfusion h, rfl, rfl,
    fun h => Except.noConfusion h, rfl⟩

/-- C1 (amended): with non-empty `failure_errors` and a wrapped function
raising `e`, `guarded_call` counts a failure when `e` matches and makes
no state change when it does not — but in both cases it swallows `e` and
returns `None` rather than rethrowing. -/
theorem claim_C1 {E C α : Type} (isInst : E → C → Bool)
    (cb : CircuitBreaker C α) (now : Nat) (e : E)
    (hfe : cb.failure_exceptions ≠ [])
    (hae : cb.allowed_exceptions = [])
    (hs : cb.state ≠ .Open) :
    (CircuitBreaker.call isInst cb now (.error e)).1 = .ok none ∧
    (matchesAny isInst e cb.failure_exceptions = true →
      (CircuitBreaker.call isInst cb now (.error e)).2 = cb.onFailure now) ∧
    (matchesAny isInst e cb.failure_exceptions = false →
      (CircuitBreaker.call isInst cb now (.error e)).2 = cb) := by
  have hcs : cb.checkState now = cb :=
    CircuitBreaker.checkState_of_not_open now hs
  have hspec := CircuitBreaker.call_error_spec isInst cb now e
    (by rw [hcs]; exact hs)
  rw [hcs] at hspec
  have hma : matchesAny isInst e cb.allowed_exceptions = false := by
    rw [hae]; simp [matchesAny]
  rw [if_neg (by rw [hma]; exact Bool.false_ne_true)] at hspec
  cases hm : matchesAny isInst e cb.failure_exceptions with
  | true =>
    rw [if_pos hm] at hspec
    refine ⟨by rw [hspec], fun _ => by rw [hspec], fun hfalse => ?_⟩
    exact absurd hfalse (by decide)
  | false =>
    rw [if_neg (by rw [hm]; exact Bool.false_ne_true)] at hspec
    have hie : cb.failure_exceptions.isEmpty = false := by
      cases hl : cb.failure_exceptions with
      | nil => exact absurd hl hfe
      | cons a l => rfl
    rw [if_neg (by rw [hie]; exact Bool.false_ne_true)] at hspec
    refine ⟨by rw [hspec], fun htrue => ?_, fun _ => by rw [hspec]⟩
    exact absurd htrue (by decide)

/-- Witness for the amended C1 at the concrete breaker `cbW0`
(`failure_exceptions = [7]`), with the matching error 7 and the
non-matching error 9. -/
theorem claim_C1_witness :
    cbW0.failure_exceptions ≠ [] ∧ cbW0.allowed_exceptions = [] ∧
    cbW0.state ≠ .Open ∧
    (CircuitBreaker.call isInstW cbW0 0 (.error 7)).1 = .ok none ∧
    (CircuitBreaker.call isInstW cbW0 0 (.error 7)).2 = cbW0.onFailure 0 ∧
    (CircuitBreaker.call isInstW cbW0 0 (.error 9)).2 = cbW0 := by
  have h7 := claim_C1 isInstW cbW0 0 7 (by decide) rfl (by decide)
  have h9 := claim_C1 isInstW cbW0 0 9 (by decide) rfl (by decide)
  exact ⟨by decide, rfl, by decide, h7.1, h7.2.1 (by decide), h9.2.2 (by decide)⟩

/-- Counterexample to C2 as stated: `cbO` is a reachable Open breaker
(deadline 5, one rejected request); `mark_failure` at time 5 — when the
Half-Open deadline has elapsed — does more than increment
`failure_count`: it re-opens the breaker, moving `half_open_time` from 5
to 10 and resetting `open_circuit_failure_count` from 1 to 0. -/
theorem claim_C2_counterexample :
    cbO.state = .Open ∧ Reachable isInstW cbO ∧
    cbO.half_open_time = 5 ∧ cbO.open_circuit_failure_count = 1 ∧
    (cbO.mark_failure 5).state = .Open ∧
    (cbO.mark_failure 5).half_open_time = 10 ∧
    (cbO.mark_failure 5).open_circuit_failure_count = 0 :=
  ⟨rfl, reachObs, rfl, rfl, rfl, rfl, rfl⟩

/-- C2 (amended): on an Open breaker, `mark_failure` increments
`failure_count` and keeps the state Open; when the incremented count has
reached `allowed_fails` and the Half-Open deadline has elapsed or the
rejected threshold has been reached, it additionally re-enters Open,
setting `half_open_at := now + retry_time` and resetting the rejected
count to 0; otherwise nothing besides `failure_count` changes. -/
theorem claim_C2 {C α : Type} (cb : CircuitBreaker C α) (now : Nat)
    (hs : cb.state = .Open) :
    ((cb.allowed_fails ≤ cb.failure_count + 1 ∧
        (cb.half_open_time ≤ now ∨
          cb.open_circuit_failure_threashold ≤ cb.open_circuit_failure_count)) →
      cb.mark_failure now =
        { cb with
          state := .Open
          failure_count := cb.failure_count + 1
          half_open_time := now + cb.retry_time
          open_circuit_failure_count := 0 }) ∧
    (¬ (cb.allowed_fails ≤ cb.failure_count + 1 ∧
        (cb.half_open_time ≤ now ∨
          cb.open_circuit_failure_threashold ≤ cb.open_circuit_failure_count)) →
      cb.mark_failure now = { cb with failure_count := cb.failure_count + 1 }) := by
  constructor
  · rintro ⟨hth, hcond⟩
    unfold CircuitBreaker.mark_failure CircuitBreaker.onFailure
    dsimp only
    rw [if_pos hth]
    rw [CircuitBreaker.checkState_pos now
      (show ({ cb with failure_count := cb.failure_count + 1 } :
        CircuitBreaker C α).state = .Open from hs) hcond]
    rw [if_pos (show ({ cb with failure_count := cb.failure_count + 1 } :
        CircuitBreaker C α).halfOpenState.state ≠ .Open by
      intro hc
      simp only [CircuitBreaker.halfOpenState] at hc
      exact absurd hc (by decide))]
    rfl
  · intro hn
    unfold CircuitBreaker.mark_failure CircuitBreaker.onFailure
    dsimp only
    by_cases hth : cb.allowed_fails ≤ cb.failure_count + 1
    · rw [if_pos hth]
      have hcond : ¬ (cb.half_open_time ≤ now ∨
          cb.open_circuit_failure_threashold ≤ cb.open_circuit_failure_count) :=
        fun hc => hn ⟨hth, hc⟩
      rw [CircuitBreaker.checkState_neg now
        (show ¬ (({ cb with failure_count := cb.failure_count + 1 } :
          CircuitBreaker C α).half_open_time ≤ now ∨
          ({ cb with failure_count := cb.failure_count + 1 } :
            CircuitBreaker C α).open_circuit_failure_threashold ≤
            ({ cb with failure_count := cb.failure_count + 1 } :
              CircuitBreaker C α).open_circuit_failure_count) from hcond)]
      rw [if_neg (show ¬ (({ cb with failure_count := cb.failure_count + 1 } :
          CircuitBreaker C α).state ≠ .Open) from fun hne => hne hs)]
    · rw [if_neg hth]

/-- Witness for the amended C2 at the reachable Open breaker `cbO` at
time 5, when the deadline has elapsed. -/
theorem claim_C2_witness :
    cbO.state = .Open ∧
    cbO.mark_failure 5 =
      { cbO with
        state := .Open
        failure_count := cbO.failure_count + 1
        half_open_time := 5 + cbO.retry_time
        open_circuit_failure_count := 0 } :=
  ⟨rfl, (claim_C2 cbO 5 rfl).1 ⟨by decide, Or.inl (by decide)⟩⟩

/-- C4: a reachable Half-Open breaker (with `allowed_fails ≥ 1`)
transitions to Open on any failure outcome — `mark_failure`, a
failure-matching error, or a failing validator — setting
`half_open_at = now + retry_time` and resetting the rejected count. -/
theorem claim_C4 {E C α : Type} (isInst : E → C → Bool)
    (cb : CircuitBreaker C α) (h : Reachable isInst cb)
    (haf : 1 ≤ cb.allowed_fails) (hs : cb.state = .HalfOpen) (now : Nat) :
    ((cb.mark_failure now).state = .Open ∧
      (cb.mark_failure now).half_open_time = now + cb.retry_time ∧
      (cb.mark_failure now).open_circuit_failure_count = 0) ∧
    (∀ e, matchesAny isInst e cb.failure_exceptions = true →
      ((CircuitBreaker.call isInst cb now (.error e)).2.state = .Open ∧
        (CircuitBreaker.call isInst cb now (.error e)).2.half_open_time =
          now + cb.retry_time ∧
        (CircuitBreaker.call isInst cb now
          (.error e)).2.open_circuit_failure_count = 0)) ∧
    (∀ vf v, cb.validation_func = some vf → vf v = false →
      ((CircuitBreaker.call isInst cb now (.ok v)).2.state = .Open ∧
        (CircuitBreaker.call isInst cb now (.ok v)).2.half_open_time =
          now + cb.retry_time ∧
        (CircuitBreaker.call isInst cb now
          (.ok v)).2.open_circuit_failure_count = 0)) := by
  have hfc : cb.allowed_fails ≤ cb.failure_count :=
    ((CircuitBreaker.reachable_inv h).2 haf).2 (by rw [hs]; decide)
  have hsne : cb.state ≠ .Open := by rw [hs]; decide
  have honf : cb.onFailure now =
      ({ cb with failure_count := cb.failure_count + 1 } :
        CircuitBreaker C α).openState now :=
    CircuitBreaker.onFailure_opens now hsne (by omega)
  have hmf : cb.mark_failure now =
      ({ cb with failure_count := cb.failure_count + 1 } :
        CircuitBreaker C α).openState now := honf
  have hcs : cb.checkState now = cb :=
    CircuitBreaker.checkState_of_not_open now hsne
  refine ⟨⟨by rw [hmf]; rfl, by rw [hmf]; rfl, by rw [hmf]; rfl⟩, ?_, ?_⟩
  · intro e hm
    have hfe := CircuitBreaker.matchesAny_ne_nil hm
    have hae : cb.allowed_exceptions = [] :=
      ((CircuitBreaker.reachable_inv h).1).resolve_right hfe
    have hspec := CircuitBreaker.call_error_spec isInst cb now e
      (by rw [hcs]; exact hsne)
    rw [hcs] at hspec
    have hma : matchesAny isInst e cb.allowed_exceptions = false := by
      rw [hae]; simp [matchesAny]
    rw [if_neg (by rw [hma]; exact Bool.false_ne_true)] at hspec
    rw [if_pos hm] at hspec
    exact ⟨by rw [hspec, honf]; rfl, by rw [hspec, honf]; rfl,
      by rw [hspec, honf]; rfl⟩
  · intro vf v hvf hvv
    have hok := CircuitBreaker.call_ok_spec isInst cb now v
      (by rw [hcs]; exact hsne)
    rw [hcs] at hok
    have hpr : cb.parseResult now v = cb.onFailure now := by
      unfold CircuitBreaker.parseResult
      rw [hvf]
      dsimp only
      rw [if_neg (by rw [hvv]; exact Bool.false_ne_true)]
    exact ⟨by rw [hok, hpr, honf]; rfl, by rw [hok, hpr, honf]; rfl,
      by rw [hok, hpr, honf]; rfl⟩

/-- Witness for C4 at the reachable Half-Open breaker `cbW2`, time 9:
`mark_failure`, the matching error 7, and the validator-failing result 0
all re-open the breaker. -/
theorem claim_C4_witness :
    cbW2.state = .HalfOpen ∧
    (cbW2.mark_failure 9).state = .Open ∧
    (cbW2.mark_failure 9).half_open_time = 9 + cbW2.retry_time ∧
    (CircuitBreaker.call isInstW cbW2 9 (.error 7)).2.state = .Open ∧
    (CircuitBreaker.call isInstW cbW2 9 (.ok 0)).2.state = .Open := by
  have h := claim_C4 isInstW cbW2 reachW2 (by decide) rfl 9
  exact ⟨rfl, h.1.1, h.1.2.1, (h.2.1 7 (by decide)).1, (h.2.2 vfW 0 rfl rfl).1⟩


/-- Counterexample to C3 as stated: `cbW2` is a reachable Half-Open
breaker with `allowed_fails = 1` and `failure_count = 1`; the
`mark_failure` step at time 5 is a Half-Open → Open transition after
which `failure_count = 2 > allowed_fails = 1`. -/
theorem claim_C3_counterexample :
    cbW2.state = .HalfOpen ∧ Reachable isInstW cbW2 ∧
    Step isInstW cbW2 (cbW2.mark_failure 5) ∧
    (cbW2.mark_failure 5).state = .Open ∧
    (cbW2.mark_failure 5).allowed_fails <
      (cbW2.mark_failure 5).failure_count :=
  ⟨rfl, reachW2, Step.mark_failure cbW2 5, rfl, by decide⟩

/-- C3 (amended): over reachable breakers with `allowed_fails ≥ 1`,
`failure_count = allowed_fails` immediately after a Closed → Open
transition and `failure_count = 0` immediately after any transition into
Closed (so `failure_count ≤ allowed_fails` after those transitions); and
while Closed, `failure_count` reaching `allowed_fails` on a failure
accounting causes the transition to Open.  After a Half-Open → Open
transition `failure_count` may exceed `allowed_fails`. -/
theorem claim_C3 {E C α : Type} (isInst : E → C → Bool)
    {cb cb' : CircuitBreaker C α} (h : Reachable isInst cb)
    (haf : 1 ≤ cb.allowed_fails) (hstep : Step isInst cb cb') :
    (cb.state = .Closed → cb'.state = .Open →
      cb'.failure_count = cb'.allowed_fails) ∧
    (cb.state ≠ .Closed → cb'.state = .Closed → cb'.failure_count = 0) ∧
    (cb.state = .Closed → ∀ m : Nat,
      cb.allowed_fails ≤ cb.failure_count + 1 →
      (cb.mark_failure m).state = .Open) := by
  have hinv := (CircuitBreaker.reachable_inv h).2 haf
  refine ⟨?_, ?_, ?_⟩
  · intro hclosed hopen
    have hfc : cb.failure_count < cb.allowed_fails := hinv.1 hclosed
    cases hstep with
    | is_open now =>
      have hcs : cb.checkState now = cb :=
        CircuitBreaker.checkState_of_not_open now (by rw [hclosed]; decide)
      have hco : cb.state = .Open := by
        have h2 : (cb.is_open now).2 = cb := hcs
        rw [h2] at hopen
        exact hopen
      rw [hclosed] at hco
      exact absurd hco (by decide)
    | call now outcome =>
      have hcs : cb.checkState now = cb :=
        CircuitBreaker.checkState_of_not_open now (by rw [hclosed]; decide)
      rcases CircuitBreaker.call_result_cases isInst cb now outcome
          (by rw [hcs, hclosed]; decide) with hr | hr | hr
      · rw [hr, hcs] at hopen
        rw [hclosed] at hopen
        exact absurd hopen (by decide)
      · rw [hr] at hopen
        have hco : BState.Closed = BState.Open := hopen
        exact absurd hco (by decide)
      · rw [hr, hcs] at hopen ⊢
        exact CircuitBreaker.onFailure_closed_to_open hclosed hfc hopen
    | mark_failure now =>
      show (cb.onFailure now).failure_count = (cb.onFailure now).allowed_fails
      exact CircuitBreaker.onFailure_closed_to_open hclosed hfc
        (show (cb.onFailure now).state = .Open from hopen)
    | increment_failure_count =>
      have hco : cb.state = .Open := hopen
      rw [hclosed] at hco
      exact absurd hco (by decide)
    | close now =>
      have hcs : cb.checkState now = cb :=
        CircuitBreaker.checkState_of_not_open now (by rw [hclosed]; decide)
      rcases CircuitBreaker.close_cases cb now with hr | hr
      · rw [hr, hcs] at hopen
        rw [hclosed] at hopen
        exact absurd hopen (by decide)
      · rw [hr] at hopen
        have hco : BState.Closed = BState.Open := hopen
        exact absurd hco (by decide)
  · intro hpre hpost
    cases hstep with
    | is_open now =>
      have h2 : (cb.is_open now).2.state = (cb.checkState now).state := rfl
      rw [h2] at hpost
      exact absurd hpost (CircuitBreaker.checkState_not_closed now hpre)
    | call now outcome =>
      by_cases hso : (cb.checkState now).state = .Open
      · rw [CircuitBreaker.call_open_spec isInst cb now outcome hso] at hpost
        have hcc : (cb.checkState now).state = .Closed := hpost
        rw [hso] at hcc
        exact absurd hcc (by decide)
      · rcases CircuitBreaker.call_result_cases isInst cb now outcome hso
            with hr | hr | hr
        · rw [hr] at hpost
          exact absurd hpost (CircuitBreaker.checkState_not_closed now hpre)
        · rw [hr]
          rfl
        · rw [hr] at hpost
          obtain ⟨hcl, -⟩ := CircuitBreaker.onFailure_closed_of_closed hpost
          exact absurd hcl (CircuitBreaker.checkState_not_closed now hpre)
    | mark_failure now =>
      obtain ⟨hcl, -⟩ := CircuitBreaker.onFailure_closed_of_closed
        (show (cb.onFailure now).state = .Closed from hpost)
      exact absurd hcl hpre
    | increment_failure_count =>
      exact absurd (show cb.state = .Closed from hpost) hpre
    | close now =>
      rcases CircuitBreaker.close_cases cb now with hr | hr
      · rw [hr] at hpost
        exact absurd hpost (CircuitBreaker.checkState_not_closed now hpre)
      · rw [hr]
        rfl
  · intro _ m hth
    exact ((CircuitBreaker.onFailure_spec cb m).1 hth).1

/-- Witness for the amended C3: the Closed → Open transition of `cbW0`
under `mark_failure` lands exactly at `failure_count = allowed_fails`. -/
theorem claim_C3_witness :
    cbW0.state = .Closed ∧ cbW1.state = .Open ∧
    cbW1.failure_count = cbW1.allowed_fails := by
  have h := claim_C3 isInstW reachW0 (by decide) (Step.mark_failure cbW0 0)
  exact ⟨rfl, rfl, h.1 rfl rfl⟩

theorem customRetryIsExhausted_failure_count {C α : Type}
    (cb : CircuitBreaker C α) (now : Nat) (b : Bool) :
    (customRetryIsExhausted cb now b).2.failure_count =
      cb.failure_count + 1 := by
  show ((cb.mark_failure now).checkState now).failure_count = _
  rw [CircuitBreaker.checkState_failure_count]
  exact CircuitBreaker.onFailure_failure_count cb now

theorem retryCycle_aborts {C α : Type} (l : Nat) (cb : CircuitBreaker C α)
    (now : Nat) (hop : ((cb.mark_failure now).is_open now).1 = true) :
    (retryCycle l cb now).1 = 1 := by
  unfold retryCycle
  simp only [customRetryIsExhausted, hop]
  rfl

theorem retryCycle_failure_count {C α : Type} :
    ∀ (l : Nat) (cb : CircuitBreaker C α) (now : Nat),
      (retryCycle l cb now).2.failure_count =
        cb.failure_count + (retryCycle l cb now).1
  | 0, cb, now => by
    unfold retryCycle
    dsimp only
    split
    · show (customRetryIsExhausted cb now (decide (0 = 0))).2.failure_count =
        cb.failure_count + 1
      exact customRetryIsExhausted_failure_count cb now (decide (0 = 0))
    · show (customRetryIsExhausted cb now (decide (0 = 0))).2.failure_count =
        cb.failure_count + 1
      exact customRetryIsExhausted_failure_count cb now (decide (0 = 0))
  | l + 1, cb, now => by
    unfold retryCycle
    dsimp only
    split
    · show (customRetryIsExhausted cb now
          (decide (l + 1 = 0))).2.failure_count = cb.failure_count + 1
      exact customRetryIsExhausted_failure_count cb now (decide (l + 1 = 0))
    · have ih := retryCycle_failure_count l
        (customRetryIsExhausted cb now (decide (l + 1 = 0))).2 now
      have hd := customRetryIsExhausted_failure_count cb now
        (decide (l + 1 = 0))
      show (retryCycle l (customRetryIsExhausted cb now
            (decide (l + 1 = 0))).2 now).2.failure_count =
        cb.failure_count +
          ((retryCycle l (customRetryIsExhausted cb now
            (decide (l + 1 = 0))).2 now).1 + 1)
      omega

/-- C6: in a retry cycle, `mark_failure` runs on every retry decision —
the breaker's failure count grows by exactly the number of transport
attempts — and as soon as `is_open` reports true after that call
(already at the first decision), no further transport attempt is made:
the cycle ends after that single attempt, surfacing the last error. -/
theorem claim_C6 {C α : Type} (cb : CircuitBreaker C α) (now : Nat)
    (retries_left : Nat) :
    ((retryCycle retries_left cb now).2.failure_count =
      cb.failure_count + (retryCycle retries_left cb now).1) ∧
    (((cb.mark_failure now).is_open now).1 = true →
      (retryCycle retries_left cb now).1 = 1) :=
  ⟨retryCycle_failure_count retries_left cb now,
    fun hop => retryCycle_aborts retries_left cb now hop⟩

/-- Witness for C6 at `cbW0` (`allowed_fails = 1`): the first
`mark_failure` opens the breaker, so a cycle with budget 5 performs
exactly one transport attempt. -/
theorem claim_C6_witness :
    ((cbW0.mark_failure 0).is_open 0).1 = true ∧
    (retryCycle 5 cbW0 0).2.failure_count =
      cbW0.failure_count + (retryCycle 5 cbW0 0).1 ∧
    (retryCycle 5 cbW0 0).1 = 1 :=
  ⟨by decide, (claim_C6 cbW0 0 5).1, (claim_C6 cbW0 0 5).2 (by decide)⟩

theorem Breaker.lookup_new_self (rs : Breaker.Registry) (u : ParsedUrl) :
    (Breaker.new rs u).2.breakers.lookup (Breaker.get_key u) =
      some (Breaker.new rs u).1 := by
  unfold Breaker.new
  dsimp only
  cases hl : rs.breakers.lookup (Breaker.get_key u) with
  | some b =>
    dsimp only
    exact hl
  | none =>
    dsimp only
    simp [List.lookup]

theorem Breaker.lookup_new_mono {rs : Breaker.Registry} {k : String}
    {b : Nat} (h : rs.breakers.lookup k = some b) (u : ParsedUrl) :
    (Breaker.new rs u).2.breakers.lookup k = some b := by
  unfold Breaker.new
  dsimp only
  cases hl : rs.breakers.lookup (Breaker.get_key u) with
  | some c =>
    dsimp only
    exact h
  | none =>
    dsimp only
    by_cases hk : Breaker.get_key u = k
    · rw [hk] at hl
      rw [hl] at h
      exact absurd h (by simp)
    · simp only [List.lookup]
      rw [show (k == Breaker.get_key u) = false from
        beq_eq_false_iff_ne.mpr fun he => hk he.symm]
      exact h

theorem Breaker.lookup_runNew_mono {k : String} {b : Nat} :
    ∀ (us : List ParsedUrl) (rs : Breaker.Registry),
      rs.breakers.lookup k = some b →
      (Breaker.runNew rs us).breakers.lookup k = some b
  | [], _, h => h
  | u :: us, _, h =>
    Breaker.lookup_runNew_mono us _ (Breaker.lookup_new_mono h u)

theorem Breaker.new_of_lookup {rs : Breaker.Registry} {k : String} {b : Nat}
    (u : ParsedUrl) (hk : Breaker.get_key u = k)
    (h : rs.breakers.lookup k = some b) :
    (Breaker.new rs u).1 = b := by
  unfold Breaker.new
  dsimp only
  rw [hk, h]

theorem Breaker.creationsFor_zero {k : String} {b : Nat} :
    ∀ (us : List ParsedUrl) (rs : Breaker.Registry),
      rs.breakers.lookup k = some b → Breaker.creationsFor k rs us = 0
  | [], _, _ => rfl
  | u :: us, rs, h => by
    unfold Breaker.creationsFor
    rw [if_neg (by
      rintro ⟨-, hnone⟩
      rw [hnone] at h
      exact Option.noConfusion h)]
    rw [Breaker.creationsFor_zero us _ (Breaker.lookup_new_mono h u)]

theorem Breaker.creationsFor_le_one (k : String) :
    ∀ (us : List ParsedUrl) (rs : Breaker.Registry),
      Breaker.creationsFor k rs us ≤ 1
  | [], _ => by simp [Breaker.creationsFor]
  | u :: us, rs => by
    unfold Breaker.creationsFor
    by_cases hc : Breaker.get_key u = k ∧ rs.breakers.lookup k = none
    · rw [if_pos hc]
      have hafter : (Breaker.new rs u).2.breakers.lookup k =
          some (Breaker.new rs u).1 := by
        rw [← hc.1]
        exact Breaker.lookup_new_self rs u
      rw [Breaker.creationsFor_zero us _ hafter]
    · rw [if_neg hc]
      have hrest := Breaker.creationsFor_le_one k us (Breaker.new rs u).2
      omega

/-- C7: two URLs whose parsed scheme, netloc and path agree (differing at
most in query and fragment) receive the identical breaker object from the
registry — whatever other `Breaker.new` calls happen before, between or
after — and over any call sequence at most one `CircuitBreaker` is ever
constructed per endpoint key. -/
theorem claim_C7 :
    (∀ (us1 us2 : List ParsedUrl) (u1 u2 : ParsedUrl),
      u1.scheme = u2.scheme → u1.netloc = u2.netloc → u1.path = u2.path →
      (Breaker.new
        (Breaker.runNew
          (Breaker.new (Breaker.runNew Breaker.Registry.initial us1) u1).2
          us2)
        u2).1 =
      (Breaker.new (Breaker.runNew Breaker.Registry.initial us1) u1).1) ∧
    (∀ (k : String) (rs : Breaker.Registry) (us : List ParsedUrl),
      Breaker.creationsFor k rs us ≤ 1) := by
  constructor
  · intro us1 us2 u1 u2 h1 h2 h3
    have hkey : Breaker.get_key u2 = Breaker.get_key u1 := by
      unfold Breaker.get_key
      rw [h1, h2, h3]
    have h4 := Breaker.lookup_new_self
      (Breaker.runNew Breaker.Registry.initial us1) u1
    have h5 := Breaker.lookup_runNew_mono us2 _ h4
    exact Breaker.new_of_lookup u2 hkey h5
  · intro k rs us
    exact Breaker.creationsFor_le_one k us rs

/-- Witness for C7: `urlW1` and `urlW2` differ only in query and
fragment; with an unrelated call to `urlW3` in between they still
receive the same breaker, and the key of `urlW1` sees one construction
over the sequence. -/
theorem claim_C7_witness :
    urlW1.scheme = urlW2.scheme ∧ urlW1.netloc = urlW2.netloc ∧
    urlW1.path = urlW2.path ∧
    (Breaker.new
      (Breaker.runNew
        (Breaker.new (Breaker.runNew Breaker.Registry.initial []) urlW1).2
        [urlW3])
      urlW2).1 =
    (Breaker.new (Breaker.runNew Breaker.Registry.initial []) urlW1).1 ∧
    Breaker.creationsFor (Breaker.get_key urlW1) Breaker.Registry.initial
      [urlW1, urlW3, urlW2] ≤ 1 :=
  ⟨rfl, rfl, rfl, claim_C7.1 [] [urlW3] urlW1 urlW2 rfl rfl rfl,
    claim_C7.2 (Breaker.get_key urlW1) Breaker.Registry.initial
      [urlW1, urlW3, urlW2]⟩

/-- Counterexample to C8 as stated: `Config` re-reads `os.environ` on
every call, so two runs that differ only in an environment mutation made
between `Init()` and the request behave differently — with
`PHY_MAX_TRIES` set to `"7"` after Init (`envW2`, which agrees with the
clean environment `envW1` everywhere else) the effective `max_tries`
becomes 7 instead of 3. -/
theorem claim_C8_counterexample :
    (∀ k, k ≠ "PHY_MAX_TRIES" → envW1 k = envW2 k) ∧
    (get_backoff_args kwargsW "get" envW1).max_tries = some 3 ∧
    (get_backoff_args kwargsW "get" envW2).max_tries = some 7 ∧
    (get_backoff_args kwargsW "get" envW1).max_tries ≠
      (get_backoff_args kwargsW "get" envW2).max_tries := by
  refine ⟨?_, rfl, rfl, by decide⟩
  intro k hk
  simp [envW1, envW2, hk]

/-- C8 (amended): the configuration is not a snapshot — it is re-read
from the environment at request time (and at breaker-creation time), so
the effective retry arguments, timeouts and circuit thresholds are a
function of the request-time values of the config variables (plus caller
kwargs) only: two environments agreeing on those variables yield
identical behavior, whatever the environment held at Init(). -/
theorem claim_C8 (env1 env2 : Env) (kwargs : Kwargs) (method : String)
    (t : Option (Int × Int)) (h : ∀ k ∈ configKeys, env1 k = env2 k) :
    get_backoff_args kwargs method env1 = get_backoff_args kwargs method env2 ∧
    get_timeouts t env1 = get_timeouts t env2 ∧
    circuitCfg env1 = circuitCfg env2 := by
  have h1 := h "PYH_CONNECT_TIMEOUT" (by decide)
  have h2 := h "PYH_READ_TIMEOUT" (by decide)
  have h3 := h "PHY_MAX_TRIES" (by decide)
  have h4 := h "PHY_BACKOFF_FACTOR" (by decide)
  have h5 := h "PYH_CIRCUIT_FAIL_THRESHOLD" (by decide)
  have h6 := h "PYH_CIRCUIT_ALIVE_THRESHOLD" (by decide)
  have h7 := h "PYH_CIRCUIT_DELAY" (by decide)
  unfold get_backoff_args get_timeouts circuitCfg Config.max_tries
    Config.backoff_factor Config.connect_timeout Config.read_timeout
    Config.cb_fail_threshold Config.cb_alive_threshold Config.cb_delay
    Config.envInt
  rw [h1, h2, h3, h4, h5, h6, h7]
  exact ⟨rfl, rfl, rfl⟩

/-- Witness for the amended C8: `envW3` sets only an unrelated variable,
so it agrees with the clean environment on all config variables and
yields identical behavior. -/
theorem claim_C8_witness :
    (∀ k ∈ configKeys, envW1 k = envW3 k) ∧
    get_backoff_args kwargsW "get" envW1 =
      get_backoff_args kwargsW "get" envW3 ∧
    circuitCfg envW1 = circuitCfg envW3 := by
  have h := claim_C8 envW1 envW3 kwargsW "get" none (by decide)
  exact ⟨by decide, h.1, h.2.2⟩

end PyHystrix
